import Mathlib

set_option maxRecDepth 8000

/-!
Verification development for the SimpliHealth health-chat API route
(`app/api/process-health-input/route.js`, the five-field variant).

The JavaScript route is shallowly embedded: JSON values become the
inductive `JValue` (JSON numbers are modelled as exact rationals),
JavaScript exceptions become `Except JsError`, the generative-model
transport and the clinical-trials `fetch` become function parameters,
and the regex heuristics of the manual fallback extractor are embedded
with an explicit leftmost-match backtracking matcher mirroring the
JavaScript regular-expression semantics for the patterns the route uses.
-/

namespace SimpliHealth

/-- JavaScript JSON-like values.  Numbers are modelled as exact rationals
(JavaScript numbers are floats; nothing in the route depends on rounding). -/
inductive JValue where
  | null : JValue
  | bool (b : Bool) : JValue
  | num (q : Rat) : JValue
  | str (s : String) : JValue
  | arr (elems : List JValue) : JValue
  | obj (fields : List (String × JValue)) : JValue

/-- A thrown JavaScript error, reduced to its `message`. -/
structure JsError where
  message : String
  deriving DecidableEq, Repr

/-- Character class `\d` of JavaScript regexes. -/
def jsIsDigit (c : Char) : Bool := '0' ≤ c && c ≤ '9'

/-- Character class `\w` of JavaScript regexes. -/
def jsIsWord (c : Char) : Bool :=
  ('a' ≤ c && c ≤ 'z') || ('A' ≤ c && c ≤ 'Z') || ('0' ≤ c && c ≤ '9') || c = '_'

/-- Character class `\s` of JavaScript regexes; also the set trimmed by
`String.prototype.trim`. -/
def jsIsSpace (c : Char) : Bool :=
  let n := c.toNat
  (n == 9) || (n == 10) || (n == 11) || (n == 12) || (n == 13) || (n == 32) ||
  (n == 0xa0) || (n == 0x1680) || (0x2000 ≤ n && n ≤ 0x200a) ||
  (n == 0x2028) || (n == 0x2029) || (n == 0x202f) || (n == 0x205f) ||
  (n == 0x3000) || (n == 0xfeff)

/-- JavaScript line terminators (the characters `.` does not match). -/
def jsIsLineTerm (c : Char) : Bool :=
  let n := c.toNat
  (n == 10) || (n == 13) || (n == 0x2028) || (n == 0x2029)

/-- JavaScript `String.prototype.trim`. -/
def jsTrim (s : String) : String :=
  String.mk (((s.data.dropWhile jsIsSpace).reverse.dropWhile jsIsSpace).reverse)

/-- JavaScript `String.prototype.toLowerCase` (ASCII range; sufficient for the checks the route makes). -/
def jsLower (s : String) : String := String.mk (s.data.map Char.toLower)

/-- JavaScript `String.prototype.includes`: substring containment. -/
def jsIncludes (s pat : String) : Bool :=
  s.data.tails.any (fun t => pat.data.isPrefixOf t)

/-- JavaScript `String.prototype.endsWith`. -/
def jsEndsWith (s suffixStr : String) : Bool := suffixStr.data.isSuffixOf s.data

/-- JavaScript `Array.prototype.join` over already-stringified pieces (also JS
`join` on a string list): empty list gives `""`. -/
def joinWith (sep : String) : List String → String
  | [] => ""
  | [a] => a
  | a :: rest => a ++ sep ++ joinWith sep rest

/-- Decimal digits to a natural number (for `parseInt` on an all-digit capture). -/
def digitsToNat (l : List Char) : Nat := l.foldl (fun acc c => acc * 10 + (c.toNat - 48)) 0

mutual

/-- JavaScript `String(v)` conversion restricted to `JValue`s. -/
def jsToStringV : JValue → String
  | .null => "null"
  | .bool true => "true"
  | .bool false => "false"
  | .num q => if q.den = 1 then toString q.num else toString q.num ++ "/" ++ toString q.den
  | .str s => s
  | .arr l => joinWith "," (jsArrStrs l)
  | .obj _ => "[object Object]"

/-- Elements of an array under `Array.prototype.toString`/`join`:
`null` becomes the empty string, everything else is stringified. -/
def jsArrStrs : List JValue → List String
  | [] => []
  | .null :: rest => "" :: jsArrStrs rest
  | v :: rest => jsToStringV v :: jsArrStrs rest

end

/-- JavaScript `String(v)` where `v` may be `undefined` (modelled as `none`). -/
def jsToStringO : Option JValue → String
  | none => "undefined"
  | some v => jsToStringV v

/-- One element of `Array.prototype.join`: `null` (and `undefined`) joins as `""`. -/
def jsJoinElem : JValue → String
  | .null => ""
  | v => jsToStringV v

/-- JavaScript truthiness of a `JValue`. -/
def jsTruthyV : JValue → Bool
  | .null => false
  | .bool b => b
  | .num q => q != 0
  | .str s => s != ""
  | .arr _ => true
  | .obj _ => true

/-- JavaScript truthiness where `none` models `undefined`. -/
def jsTruthy : Option JValue → Bool
  | none => false
  | some v => jsTruthyV v

/-- Property lookup in the field list of an object. -/
def objLookup : List (String × JValue) → String → Option JValue
  | [], _ => none
  | (k, v) :: rest, key => if k = key then some v else objLookup rest key

/-- Total property read: `none` models JavaScript `undefined` (also for
primitives, which have none of the properties this route reads). -/
def objField (v : JValue) (key : String) : Option JValue :=
  match v with
  | .obj fields => objLookup fields key
  | _ => none

/-- Property read `v[key]` as evaluated by the route: reading a property of `null`
throws a `TypeError`, anything else yields the field or `undefined`. -/
def jsGetO (v : JValue) (key : String) : Except JsError (Option JValue) :=
  match v with
  | .null => .error ⟨"Cannot read properties of null (reading " ++ key ++ ")"⟩
  | w => .ok (objField w key)

/-- JavaScript `arr.join(sep)`: only arrays have `join`. -/
def jsJoin (v : JValue) (sep : String) : Except JsError String :=
  match v with
  | .arr l => .ok (joinWith sep (l.map jsJoinElem))
  | _ => .error ⟨"join is not a function"⟩

/-! ### Leftmost-match backtracking regex machinery

`MState` is a matcher state: the previously consumed character (for the
word boundary `\b`) and the remaining input.  A matcher step maps a state
to the list of successor states in backtracking priority order, so the
head of the list is the alternative a JavaScript regex engine commits to
first. -/

/-- Matcher state: previous character (for `\b`) and remaining input. -/
abbrev MState := Option Char × List Char

/-- Case-optional character comparison (the `i` flag). -/
def charEqCI (ci : Bool) (a b : Char) : Bool :=
  if ci then a.toLower == b.toLower else a == b

/-- Match a literal sequence of pattern characters. -/
def pmLit (ci : Bool) : List Char → MState → List MState
  | [], st => [st]
  | _ :: _, (_, []) => []
  | p :: ps, (_, c :: rest) =>
    if charEqCI ci p c then pmLit ci ps (some c, rest) else []

/-- Sequencing of matcher steps (backtracking order preserved). -/
def pmSeq (p q : MState → List MState) (st : MState) : List MState :=
  (p st).flatMap q

/-- Alternation: the left alternative has priority. -/
def pmAlt (p q : MState → List MState) (st : MState) : List MState :=
  p st ++ q st

/-- Greedy `cls*`: all consumption counts, longest first. -/
def pmStar (f : Char → Bool) (st : MState) : List MState :=
  let run := st.2.takeWhile f
  (List.range (run.length + 1)).map (fun k =>
    let n := run.length - k
    (if n = 0 then st.1 else (run.take n).getLast?, st.2.drop n))

/-- Greedy `cls+`: all consumption counts from the maximal run down to one. -/
def pmPlus (f : Char → Bool) (st : MState) : List MState :=
  let run := st.2.takeWhile f
  (List.range run.length).map (fun k =>
    let n := run.length - k
    ((run.take n).getLast?, st.2.drop n))

/-- The word boundary `\b`. -/
def pmBound (st : MState) : List MState :=
  let a := match st.1 with | none => false | some c => jsIsWord c
  let b := match st.2 with | [] => false | c :: _ => jsIsWord c
  if a != b then [st] else []

/-- The end anchor `$` (no `m` flag: end of input only). -/
def pmEos (st : MState) : List MState :=
  match st.2 with
  | [] => [st]
  | _ :: _ => []

/-- The empty pattern. -/
def pmEps (st : MState) : List MState := [st]

/-- Optional literal `lit?` (greedy: the consuming branch first). -/
def pmOptLit (ci : Bool) (lit : List Char) (st : MState) : List MState :=
  pmLit ci lit st ++ [st]

/-- First `some` produced by `f` along a list, in order. -/
def firstSome {α β : Type} (f : α → Option β) : List α → Option β
  | [] => none
  | a :: as =>
    match f a with
    | some b => some b
    | none => firstSome f as

/-- Try a full match `pre (capCls+) post` anchored at `st`, returning the
(greedy, leftmost-backtracking) capture of the single group `(capCls+)`. -/
def tryCapAt (pre : MState → List MState) (capCls : Char → Bool)
    (post : MState → List MState) (st : MState) : Option (List Char) :=
  firstSome (fun st1 =>
    let run := st1.2.takeWhile capCls
    firstSome (fun k =>
      let n := run.length - k
      let taken := run.take n
      let st2 : MState := (taken.getLast?, st1.2.drop n)
      firstSome (fun _ => some taken) (post st2))
      (List.range run.length))
    (pre st)

/-- Scan start positions left to right (as `RegExp.prototype.exec` does),
returning the first successful capture. -/
def scanAux (pre : MState → List MState) (capCls : Char → Bool)
    (post : MState → List MState) : Option Char → List Char → Option (List Char)
  | prev, cs =>
    match tryCapAt pre capCls post (prev, cs) with
    | some r => some r
    | none =>
      match cs with
      | [] => none
      | c :: rest => scanAux pre capCls post (some c) rest

/-- Capture `input.match(re)?.[1]` for a regex of shape `pre (capCls+) post`. -/
def regexCapture (pre : MState → List MState) (capCls : Char → Bool)
    (post : MState → List MState) (s : String) : Option String :=
  (scanAux pre capCls post none s.data).map String.mk

/-- Capture of `/\b(\d+)\b/` on the input. -/
def ageCapture (s : String) : Option String :=
  regexCapture pmBound jsIsDigit pmBound s

/-- Capture of `/\b(?:at|in)\s+([^\.]+)/i` on the input. -/
def locCapture (s : String) : Option String :=
  regexCapture
    (pmSeq pmBound (pmSeq (pmAlt (pmLit true "at".data) (pmLit true "in".data)) (pmPlus jsIsSpace)))
    (fun c => c ≠ '.') pmEps s

/-- Capture of `/\b(?:with|have)\s+(\w+)(?:\s+condition)?/i`: the optional
tail group never affects success or the first capture. -/
def condCapture (s : String) : Option String :=
  regexCapture
    (pmSeq pmBound (pmSeq (pmAlt (pmLit true "with".data) (pmLit true "have".data)) (pmPlus jsIsSpace)))
    jsIsWord pmEps s

/-- Capture of `/symptoms?:?\s*(.+)$/i` (no `m` flag, `.` excludes line
terminators, `$` is end of input). -/
def sympCapture (s : String) : Option String :=
  regexCapture
    (pmSeq (pmLit true "symptom".data)
      (pmSeq (pmOptLit true "s".data) (pmSeq (pmOptLit true ":".data) (pmStar jsIsSpace))))
    (fun c => !(jsIsLineTerm c)) pmEos s

/-- Length of the leftmost-at-this-position match of the separator regex
`/\s*,\s*|\s+and\s+/` (used by `split`), if any. -/
def sepFirstLen (cs : List Char) : Option Nat :=
  let alt1 := pmSeq (pmStar jsIsSpace) (pmSeq (pmLit false ",".data) (pmStar jsIsSpace))
  let alt2 := pmSeq (pmPlus jsIsSpace) (pmSeq (pmLit false "and".data) (pmPlus jsIsSpace))
  match (pmAlt alt1 alt2 (none, cs)).head? with
  | some (_, rest) => some (cs.length - rest.length)
  | none => none

/-- Worker for `String.prototype.split` on the separator regex (fuelled; both
separator alternatives consume at least one character). -/
def splitGo : Nat → List Char → List Char → List String
  | 0, cs, acc => [String.mk (acc.reverse ++ cs)]
  | _ + 1, [], acc => [String.mk acc.reverse]
  | fuel + 1, c :: rest, acc =>
    match sepFirstLen (c :: rest) with
    | some n => String.mk acc.reverse :: splitGo fuel (List.drop n (c :: rest)) []
    | none => splitGo fuel rest (c :: acc)

/-- The composite `s.split(/\s*,\s*|\s+and\s+/).filter(Boolean)`. -/
def splitFilter (s : String) : List String :=
  (splitGo (s.data.length + 1) s.data []).filter (fun p => p ≠ "")

/-- The deterministic heuristic fallback record built by
the catch branch of `processHealthInput` from the raw input text. -/
def manualExtraction (input : String) : JValue :=
  .obj [
    ("age",
      match ageCapture input with
      | none => .null
      | some ds => if digitsToNat ds.data = 0 then .null else .num ((digitsToNat ds.data : Nat) : Rat)),
    ("location",
      let t := jsTrim (match locCapture input with | some c => c | none => "")
      if t = "" then .null else .str t),
    ("condition",
      match condCapture input with
      | some c => .str c
      | none => .null),
    ("symptoms",
      .arr ((splitFilter (match sympCapture input with | some c => c | none => "")).map JValue.str)),
    ("isFollowUp",
      .bool (jsIncludes (jsLower input) "previous" || jsIncludes (jsLower input) "earlier" ||
        jsEndsWith (jsTrim input) "?")),
    ("followUpTopic", .null)]

/-! ### `JSON.parse` -/

/-- JSON whitespace (strictly space, tab, line feed, carriage return). -/
def jsonWs (c : Char) : Bool := c == ' ' || c == '\t' || c == '\n' || c == '\r'

/-- Skip JSON whitespace. -/
def skipWs (cs : List Char) : List Char := cs.dropWhile jsonWs

/-- Value of a hexadecimal digit. -/
def hexVal (c : Char) : Option Nat :=
  if '0' ≤ c && c ≤ '9' then some (c.toNat - 48)
  else if 'a' ≤ c && c ≤ 'f' then some (c.toNat - 87)
  else if 'A' ≤ c && c ≤ 'F' then some (c.toNat - 55)
  else none

/-- Four hex digits of a `\u` escape. -/
def parseHex4 : List Char → Option (Nat × List Char)
  | c1 :: c2 :: c3 :: c4 :: rest => do
    let a ← hexVal c1
    let b ← hexVal c2
    let c ← hexVal c3
    let d ← hexVal c4
    some (((a * 16 + b) * 16 + c) * 16 + d, rest)
  | _ => none

/-- Body of a JSON string after the opening quote: contents and the rest of
the input after the closing quote.  Control characters must be escaped;
`\u` surrogate pairs are combined (a lone surrogate is rejected, where
`JSON.parse` would produce an unpaired UTF-16 unit no `Char` can hold). -/
def parseStrChars : Nat → List Char → Option (List Char × List Char)
  | 0, _ => none
  | _ + 1, [] => none
  | _ + 1, '"' :: rest => some ([], rest)
  | fuel + 1, '\\' :: esc =>
    (match esc with
    | '"' :: rest => (parseStrChars fuel rest).map (fun (s, r) => ('"' :: s, r))
    | '\\' :: rest => (parseStrChars fuel rest).map (fun (s, r) => ('\\' :: s, r))
    | '/' :: rest => (parseStrChars fuel rest).map (fun (s, r) => ('/' :: s, r))
    | 'b' :: rest => (parseStrChars fuel rest).map (fun (s, r) => (Char.ofNat 8 :: s, r))
    | 'f' :: rest => (parseStrChars fuel rest).map (fun (s, r) => (Char.ofNat 12 :: s, r))
    | 'n' :: rest => (parseStrChars fuel rest).map (fun (s, r) => ('\n' :: s, r))
    | 'r' :: rest => (parseStrChars fuel rest).map (fun (s, r) => ('\r' :: s, r))
    | 't' :: rest => (parseStrChars fuel rest).map (fun (s, r) => ('\t' :: s, r))
    | 'u' :: hexRest =>
      (match parseHex4 hexRest with
      | none => none
      | some (n, rest) =>
        if n < 0xd800 || 0xe000 ≤ n then
          (parseStrChars fuel rest).map (fun (s, r) => (Char.ofNat n :: s, r))
        else if n < 0xdc00 then
          match rest with
          | '\\' :: 'u' :: hexRest2 =>
            (match parseHex4 hexRest2 with
            | some (m, rest2) =>
              if 0xdc00 ≤ m && m < 0xe000 then
                (parseStrChars fuel rest2).map (fun (s, r) =>
                  (Char.ofNat (0x10000 + (n - 0xd800) * 0x400 + (m - 0xdc00)) :: s, r))
              else none
            | none => none)
          | _ => none
        else none)
    | _ => none)
  | fuel + 1, c :: rest =>
    if c.toNat < 32 then none
    else (parseStrChars fuel rest).map (fun (s, r) => (c :: s, r))

/-- JSON number literal (strict grammar of `JSON.parse`), as an exact rational. -/
def parseNumber (cs : List Char) : Option (Rat × List Char) :=
  let (neg, cs1) := match cs with | '-' :: r => (true, r) | _ => (false, cs)
  match cs1 with
  | [] => none
  | c :: r =>
    if !(jsIsDigit c) then none else
    let (intPart, afterInt) :=
      if c = '0' then ([c], r)
      else (cs1.takeWhile jsIsDigit, cs1.dropWhile jsIsDigit)
    let (fracPart, afterFrac) :=
      match afterInt with
      | '.' :: r2 => (r2.takeWhile jsIsDigit, r2.dropWhile jsIsDigit)
      | _ => ([], afterInt)
    let fracOk := match afterInt with | '.' :: _ => !fracPart.isEmpty | _ => true
    let hasExp := match afterFrac with | 'e' :: _ => true | 'E' :: _ => true | _ => false
    let (expNeg, expDigits, afterExp) :=
      match afterFrac with
      | _ :: '+' :: r3 => (false, r3.takeWhile jsIsDigit, r3.dropWhile jsIsDigit)
      | _ :: '-' :: r3 => (true, r3.takeWhile jsIsDigit, r3.dropWhile jsIsDigit)
      | _ :: r3 => (false, r3.takeWhile jsIsDigit, r3.dropWhile jsIsDigit)
      | [] => (false, [], afterFrac)
    if !fracOk then none
    else if hasExp && expDigits.isEmpty then none
    else
      let m : Int := (digitsToNat (intPart ++ fracPart) : Nat)
      let sm : Int := if neg then -m else m
      let e : Nat := digitsToNat expDigits
      let q : Rat :=
        if !hasExp then mkRat sm (10 ^ fracPart.length)
        else if expNeg then mkRat sm (10 ^ (fracPart.length + e))
        else mkRat (sm * (10 ^ e : Nat)) (10 ^ fracPart.length)
      some (q, if hasExp then afterExp else afterFrac)

/-- Insert a key into an object being built: `JSON.parse` keeps the first
position of a duplicated key but the last value. -/
def objPut : List (String × JValue) → String → JValue → List (String × JValue)
  | [], k, v => [(k, v)]
  | (k0, v0) :: rest, k, v =>
    if k0 = k then (k0, v) :: rest else (k0, v0) :: objPut rest k v

/-- Parsing mode of the JSON parser core: a single value, the items of a
non-empty array, or the remaining members of a non-empty object together
with the members accumulated so far. -/
inductive PFrame where
  | val
  | arrItems
  | objItems (acc : List (String × JValue))

/-- Fuelled `JSON.parse` core, written as one structural recursion so that
concrete inputs reduce definitionally (fuel is never the limiting factor
for the fuel `parseJson` supplies). -/
def parseCore : Nat → PFrame → List Char → Option (JValue × List Char)
  | 0, _, _ => none
  | fuel + 1, .val, cs =>
    match skipWs cs with
    | 'n' :: 'u' :: 'l' :: 'l' :: r => some (.null, r)
    | 't' :: 'r' :: 'u' :: 'e' :: r => some (.bool true, r)
    | 'f' :: 'a' :: 'l' :: 's' :: 'e' :: r => some (.bool false, r)
    | '"' :: r => (parseStrChars (r.length + 1) r).map (fun (s, r2) => (.str (String.mk s), r2))
    | '[' :: r =>
      (match skipWs r with
      | ']' :: r2 => some (.arr [], r2)
      | _ => parseCore fuel .arrItems r)
    | '\x7b' :: r =>
      (match skipWs r with
      | '\x7d' :: r2 => some (.obj [], r2)
      | _ => parseCore fuel (.objItems []) r)
    | cs2 => (parseNumber cs2).map (fun (q, r) => (.num q, r))
  | fuel + 1, .arrItems, cs =>
    match parseCore fuel .val cs with
    | none => none
    | some (v, r) =>
      match skipWs r with
      | ',' :: r2 =>
        (match parseCore fuel .arrItems r2 with
        | some (.arr l, r3) => some (.arr (v :: l), r3)
        | _ => none)
      | ']' :: r2 => some (.arr [v], r2)
      | _ => none
  | fuel + 1, .objItems acc, cs =>
    match skipWs cs with
    | '"' :: r =>
      (match parseStrChars (r.length + 1) r with
      | none => none
      | some (k, r2) =>
        match skipWs r2 with
        | ':' :: r3 =>
          (match parseCore fuel .val r3 with
          | none => none
          | some (v, r4) =>
            let acc2 := objPut acc (String.mk k) v
            match skipWs r4 with
            | ',' :: r5 => parseCore fuel (.objItems acc2) r5
            | '\x7d' :: r5 => some (.obj acc2, r5)
            | _ => none)
        | _ => none)
    | _ => none

/-- JavaScript `JSON.parse`: `none` models the thrown `SyntaxError`. -/
def parseJson (s : String) : Option JValue :=
  match parseCore (2 * s.data.length + 2) .val s.data with
  | some (v, rest) => if skipWs rest = [] then some v else none
  | none => none

/-- The call `.replace(/```json\n|\n```/g, ...)` with an empty replacement: global leftmost removal of the two
fence alternatives, the left alternative first at each position. -/
def stripFences : Nat → List Char → List Char
  | 0, cs => cs
  | fuel + 1, cs =>
    if ("```json\n".data).isPrefixOf cs then stripFences fuel (cs.drop 8)
    else if ("\n```".data).isPrefixOf cs then stripFences fuel (cs.drop 4)
    else
      match cs with
      | [] => []
      | c :: rest => c :: stripFences fuel rest

/-- The cleaned model reply: fence markers removed, then trimmed. -/
def cleanResp (s : String) : String :=
  jsTrim (String.mk (stripFences (s.data.length + 1) s.data))

/-! ### Operations of the route -/

/-- The extraction instruction template (the template literal of
`processHealthInput`), as a function of the joined history and the
stringified new input. -/
def extractPrompt (hist inputStr : String) : String :=
  "\n    Given the following conversation history and new input, extract the age, location, condition (if any), and symptoms.\n    If the new input is a question or comment about a previous health issue, use the most recent health information from the conversation history.\n    If it\x27s a new health issue, extract the information from the new input.\n    \n    Conversation history:\n    " ++
  hist ++
  "\n    \n    New input: \"" ++ inputStr ++ "\"\n    \n    Respond with a JSON object containing these fields:\n    \x7b\n      \"age\": (number or null if not provided),\n      \"location\": (string or null if not provided),\n      \"condition\": (string or null if not provided),\n      \"symptoms\": (array of strings, can be empty),\n      \"isFollowUp\": (boolean, true if the input is a follow-up question or comment about a previous health issue),\n      \"followUpTopic\": (string, the main topic of the follow-up question or comment, or null if not a follow-up)\n    \x7d\n  "

/-- The extractor `processHealthInput(input, conversationHistory)`: builds the extraction
prompt, consults the model (`gemini` maps a prompt to the reply text or a
rejection), parses the cleaned reply as JSON, and on parse failure falls
back to `manualExtraction` over the raw input (which itself throws when
the input is not a string, as `input.match` does). -/
def processHealthInput (input : Option JValue) (conversationHistory : JValue)
    (gemini : String → Except JsError String) : Except JsError JValue := do
  let hist ← jsJoin conversationHistory "\n"
  let reply ← gemini (extractPrompt hist (jsToStringO input))
  match parseJson (cleanResp reply) with
  | some v => pure v
  | none =>
    match input with
    | some (.str s) => pure (manualExtraction s)
    | some .null => .error ⟨"Cannot read properties of null (reading match)"⟩
    | none => .error ⟨"Cannot read properties of undefined (reading match)"⟩
    | some _ => .error ⟨"input.match is not a function"⟩

/-- Spread `[...symptoms]`: spreading an array or a string succeeds, anything else
throws a `TypeError`. -/
def jsSpread : Option JValue → Except JsError (List JValue)
  | some (.arr l) => .ok l
  | some (.str s) => .ok (s.data.map (fun c => .str (String.mk [c])))
  | _ => .error ⟨"symptoms is not iterable"⟩

/-- Worker for `location.split` on a single space. -/
def splitOnSpaceAux : List Char → List Char → List String
  | [], acc => [String.mk acc.reverse]
  | c :: rest, acc =>
    if c = ' ' then String.mk acc.reverse :: splitOnSpaceAux rest []
    else splitOnSpaceAux rest (c :: acc)

/-- First element of `location.split` on a space: the first space-delimited token (the empty
string when the input starts with a space or is empty). -/
def firstToken (s : String) : String := (splitOnSpaceAux s.data []).headD ""

/-- Percent-encoding exemptions of `encodeURIComponent`. -/
def isUnreserved (c : Char) : Bool :=
  ('A' ≤ c && c ≤ 'Z') || ('a' ≤ c && c ≤ 'z') || ('0' ≤ c && c ≤ '9') ||
  c == '-' || c == '_' || c == '.' || c == '!' || c == '~' || c == '*' ||
  c == Char.ofNat 39 || c == '(' || c == ')'

/-- Uppercase hexadecimal digit. -/
def hexDigitU (n : Nat) : Char := if n < 10 then Char.ofNat (48 + n) else Char.ofNat (55 + n)

/-- UTF-8 bytes of a character. -/
def utf8Bytes (c : Char) : List Nat :=
  let n := c.toNat
  if n < 0x80 then [n]
  else if n < 0x800 then [0xc0 + n / 64, 0x80 + n % 64]
  else if n < 0x10000 then [0xe0 + n / 4096, 0x80 + (n / 64) % 64, 0x80 + n % 64]
  else [0xf0 + n / 262144, 0x80 + (n / 4096) % 64, 0x80 + (n / 64) % 64, 0x80 + n % 64]

/-- JavaScript `encodeURIComponent`. -/
def encodeURIComponent (s : String) : String :=
  String.mk (s.data.flatMap (fun c =>
    if isUnreserved c then [c]
    else (utf8Bytes c).flatMap (fun b => ['%', hexDigitU (b / 16), hexDigitU (b % 16)])))

/-- The clinical-trials request URL for a given query string and country
token (shared by both route variants; both request `pageSize=5`). -/
def trialsUrl (query country : String) : String :=
  "https://clinicaltrials.gov/api/v2/studies?format=json&query.cond=" ++
  encodeURIComponent query ++ "&query.locn=" ++ encodeURIComponent country ++ "&pageSize=5"

/-- A settled `fetch` response: `ok`/`status`, and the outcomes of
`response.text()` and `response.json()`. -/
structure FetchResp where
  ok : Bool
  status : Nat
  textBody : Except JsError String
  body : Except JsError JValue

/-- The finder `fetchClinicalTrials(symptoms, location, condition)` of the five-field
route: spreads the symptoms, appends a truthy condition, OR-joins the
terms, takes the first token of the location (throwing when the location
is not a string, as `location.split` does), queries the registry, and
returns `data.studies || []` on a success status, `[]` on a non-success
status; a transport rejection propagates. -/
def fetchClinicalTrials (symptoms location condition : Option JValue)
    (fetchFn : String → Except JsError FetchResp) : Except JsError JValue := do
  let qt ← jsSpread symptoms
  let queryTerms := match condition with
    | some c => if jsTruthyV c then qt ++ [c] else qt
    | none => qt
  let query := joinWith " OR " (queryTerms.map jsJoinElem)
  let country ← (match location with
    | some (.str s) => Except.ok (firstToken s)
    | some .null => Except.error ⟨"Cannot read properties of null (reading split)"⟩
    | none => Except.error ⟨"Cannot read properties of undefined (reading split)"⟩
    | some _ => Except.error ⟨"location.split is not a function"⟩)
  match fetchFn (trialsUrl query country) with
  | .error e => .error e
  | .ok resp =>
    if resp.ok then do
      let data ← resp.body
      let studies ← jsGetO data "studies"
      pure (match studies with
        | some v => if jsTruthyV v then v else .arr []
        | none => .arr [])
    else do
      let _ ← resp.textBody
      pure (.arr [])

/-- Length read `symptoms.length` as evaluated by `generateHealthAdvice`: reading
`length` of `null`/`undefined` throws; arrays and strings have a length;
other values yield `undefined` (modelled `none`). -/
def jsLength : Option JValue → Except JsError (Option Nat)
  | none => .error ⟨"Cannot read properties of undefined (reading length)"⟩
  | some .null => .error ⟨"Cannot read properties of null (reading length)"⟩
  | some (.arr l) => .ok (some l.length)
  | some (.str s) => .ok (some s.length)
  | some _ => .ok none

/-- Join `symptoms.join(sep)`: only arrays have `join`. -/
def jsJoinArrOnly : Option JValue → String → Except JsError String
  | some (.arr l), sep => .ok (joinWith sep (l.map jsJoinElem))
  | _, _ => .error ⟨"symptoms.join is not a function"⟩

/-- Map `symptoms.map(symptom => ...)` building the per-symptom advice lines of
the fresh-issue format block. -/
def jsMapSymptomLines : Option JValue → Except JsError (List String)
  | some (.arr l) =>
    .ok (l.map (fun v => "[" ++ jsToStringV v ++ "]: [Advice for " ++ jsToStringV v ++ "]"))
  | _ => .error ⟨"symptoms.map is not a function"⟩

/-- Null check used by `if (age !== null)` (strict: `undefined`
is not `null`). -/
def isJNull : Option JValue → Bool
  | some .null => true
  | _ => false

/-- The constant follow-up format section of the advice instruction. -/
def followUpFmt : String :=
  "Answer: [Provide a detailed answer to the user\x27s follow-up question or comment]"

/-- The fresh-issue format section of the advice instruction, around an
optional symptom-specific block. -/
def freshFmt (symBlock : String) : String :=
  "\n    General Advice: [General advice here]\n    \n    " ++ symBlock ++
  "\n    When to Seek Medical Help: [Advice on when to seek professional help]\n    "

/-- The trailing template of the advice instruction shared by both modes
(recommendation/interaction guidance, embedded history, format request). -/
def advicePromptTail (hist fmt : String) : String :=
  "\n    Provide specific recommendations for each symptom (if any) and when to seek professional medical help. \n    If there\x27s a pre-existing condition, consider how it might interact with the symptoms.\n    \n    Conversation history:\n    " ++
  hist ++ "\n    \n    Format the response as follows:\n    " ++ fmt ++ "\n  "

/-- The full advice instruction text built by `generateHealthAdvice`
before the model call, with the evaluation (and throwing) order of the
JavaScript template. -/
def buildAdvicePrompt (age location symptoms condition isFollowUp followUpTopic : Option JValue)
    (conversationHistory : JValue) : Except JsError String := do
  let mid ← (if jsTruthy isFollowUp then
      Except.ok ("provide a detailed answer to the user\x27s follow-up question or comment about " ++
        (if jsTruthy followUpTopic then jsToStringO followUpTopic else "their previous health issue") ++
        ". " ++ "Consider the previous health information and advice given when formulating your response.")
    else do
      let p1 := "generate health advice for a person"
      let p2 := if isJNull age then p1 else p1 ++ " aged " ++ jsToStringO age
      let p3 := if jsTruthy location then p2 ++ " in " ++ jsToStringO location else p2
      let len ← jsLength symptoms
      let p4 ← (match len with
        | some n =>
          if n > 0 then do
            let joined ← jsJoinArrOnly symptoms ", "
            Except.ok (p3 ++ " experiencing the following symptom" ++
              (if n > 1 then "s" else "") ++ ": " ++ joined ++ ".")
          else Except.ok (p3 ++ " with no reported symptoms.")
        | none => Except.ok (p3 ++ " with no reported symptoms."))
      Except.ok (if jsTruthy condition then
          p4 ++ " They have a pre-existing condition of " ++ jsToStringO condition ++ "."
        else p4))
  let hist ← jsJoin conversationHistory "\n"
  let fmt ← (if jsTruthy isFollowUp then Except.ok followUpFmt
    else do
      let len ← jsLength symptoms
      let symBlock ← (match len with
        | some n =>
          if n > 0 then do
            let entries ← jsMapSymptomLines symptoms
            Except.ok ("Symptom-specific Advice:\n    " ++ joinWith "\n" entries ++ "\n    ")
          else Except.ok ""
        | none => Except.ok "")
      Except.ok (freshFmt symBlock))
  Except.ok ("Given the following conversation history and current health information, " ++ mid ++
    advicePromptTail hist fmt)

/-- The generator `generateHealthAdvice`: build the instruction, consult the model. -/
def generateHealthAdvice (age location symptoms condition isFollowUp followUpTopic : Option JValue)
    (conversationHistory : JValue) (gemini : String → Except JsError String) :
    Except JsError String := do
  let prompt ← buildAdvicePrompt age location symptoms condition isFollowUp followUpTopic conversationHistory
  gemini prompt

/-- A `NextResponse.json(body, { status })` value. -/
structure ApiResponse where
  status : Nat
  body : JValue

/-- The defaulting destructuring `conversationHistory = []`. -/
def histOrDefault : Option JValue → JValue
  | none => .arr []
  | some v => v

/-- Body of the `try` block of the five-field route: parse the body,
destructure, extract, then trials (failure caught and replaced by `[]`)
alongside advice (failure fatal). -/
def POSTcore (reqBody : Except JsError JValue) (gemini : String → Except JsError String)
    (fetchFn : String → Except JsError FetchResp) : Except JsError JValue := do
  let bodyV ← reqBody
  let userInput ← jsGetO bodyV "userInput"
  let historyF ← jsGetO bodyV "conversationHistory"
  let conversationHistory := histOrDefault historyF
  let extractedData ← processHealthInput userInput conversationHistory gemini
  let age ← jsGetO extractedData "age"
  let location ← jsGetO extractedData "location"
  let condition ← jsGetO extractedData "condition"
  let symptoms ← jsGetO extractedData "symptoms"
  let isFollowUp ← jsGetO extractedData "isFollowUp"
  let followUpTopic ← jsGetO extractedData "followUpTopic"
  let clinicalTrials := match fetchClinicalTrials symptoms location condition fetchFn with
    | .error _ => JValue.arr []
    | .ok v => v
  let healthAdvice ← generateHealthAdvice age location symptoms condition isFollowUp
    followUpTopic conversationHistory gemini
  pure (JValue.obj [("extractedData", extractedData), ("clinicalTrials", clinicalTrials),
    ("healthAdvice", .str healthAdvice)])

/-- The five-field `POST` handler: the `try` body above, with its
`catch` turning any uncaught failure into a 500 carrying the error
message, and success into a 200 bundle. -/
def POST (reqBody : Except JsError JValue) (gemini : String → Except JsError String)
    (fetchFn : String → Except JsError FetchResp) : ApiResponse :=
  match POSTcore reqBody gemini fetchFn with
  | .ok b => ⟨200, b⟩
  | .error e => ⟨500, .obj [("error", .str e.message)]⟩

/-! ### The earlier three-field route variant -/

/-- Extraction instruction of the three-field variant. -/
def extractPromptV1 (inputStr : String) : String :=
  "\n    Extract the age, location, and symptom from the following text. \n    If any information is missing, use \"unknown\" for that field.\n    Respond with a JSON object containing these three fields:\n    \x7b\n      \"age\": (number or \"unknown\"),\n      \"location\": (string or \"unknown\"),\n      \"symptom\": (string or \"unknown\")\n    \x7d\n    \n    Text: \"" ++
  inputStr ++ "\"\n  "

/-- The three-field variant of `processHealthInput`: no cleaning, no
fallback — a `JSON.parse` failure propagates. -/
def processHealthInputV1 (input : Option JValue)
    (gemini : String → Except JsError String) : Except JsError JValue := do
  let reply ← gemini (extractPromptV1 (jsToStringO input))
  match parseJson reply with
  | some v => pure v
  | none => .error ⟨"Unexpected token in JSON"⟩

/-- The three-field variant of `fetchClinicalTrials(condition, country)`:
`encodeURIComponent` coerces its arguments to strings; a non-success
status throws; `data.studies` is returned without the `|| []` default. -/
def fetchClinicalTrialsV1 (condition country : Option JValue)
    (fetchFn : String → Except JsError FetchResp) : Except JsError (Option JValue) := do
  match fetchFn (trialsUrl (jsToStringO condition) (jsToStringO country)) with
  | .error e => .error e
  | .ok resp =>
    if resp.ok then do
      let data ← resp.body
      jsGetO data "studies"
    else .error ⟨"Clinical Trials API responded with status: " ++ toString resp.status⟩

/-- Advice instruction of the three-field variant. -/
def advicePromptV1 (age location symptom : String) : String :=
  "\n    Given a patient with the following information:\n    Age: " ++ age ++
  "\n    Location: " ++ location ++ "\n    Symptom: " ++ symptom ++
  "\n\n    Provide a brief analysis of potential health issues and general advice. \n    Keep the response concise and informative, suitable for a health app user.\n    Do not provide a definitive diagnosis, but suggest possible causes and when to seek professional medical help.\n  "

/-- The three-field variant of `generateHealthAdvice`. -/
def generateHealthAdviceV1 (age location symptom : Option JValue)
    (gemini : String → Except JsError String) : Except JsError String :=
  gemini (advicePromptV1 (jsToStringO age) (jsToStringO location) (jsToStringO symptom))

/-- The three-field variant of `POST`: it alone validates the input,
returning 400 on a falsy `userInput` before any upstream call; otherwise
extraction, then trials (failure fatal here), then advice; failures give
a 500 with a constant message. -/
def POSTV1core (reqBody : Except JsError JValue) (gemini : String → Except JsError String)
    (fetchFn : String → Except JsError FetchResp) : Except JsError ApiResponse := do
  let bodyV ← reqBody
  let userInput ← jsGetO bodyV "userInput"
  if !(jsTruthy userInput) then
    pure (ApiResponse.mk 400 (.obj [("error", .str "No input provided")]))
  else do
    let extractedData ← processHealthInputV1 userInput gemini
    let symptomF ← jsGetO extractedData "symptom"
    let locationF ← jsGetO extractedData "location"
    let trials ← fetchClinicalTrialsV1 symptomF locationF fetchFn
    let ageF ← jsGetO extractedData "age"
    let advice ← generateHealthAdviceV1 ageF locationF symptomF gemini
    pure (ApiResponse.mk 200 (.obj ([("extractedData", extractedData)] ++
      (match trials with | some t => [("clinicalTrials", t)] | none => []) ++
      [("healthAdvice", .str advice)])))

/-- The three-field variant of `POST` with its `catch` boundary. -/
def POSTV1 (reqBody : Except JsError JValue) (gemini : String → Except JsError String)
    (fetchFn : String → Except JsError FetchResp) : ApiResponse :=
  match POSTV1core reqBody gemini fetchFn with
  | .ok r => r
  | .error _ => ⟨500, .obj [("error", .str "An error occurred while processing your request.")]⟩

/-- Substring containment, the specification-level reading of the
instruction text "containing" a requested section. -/
def strContains (s sub : String) : Prop :=
  ∃ l r : List Char, s.data = l ++ (sub.data ++ r)

/-! ### Theorems -/

theorem strContains_self (s : String) : strContains s s :=
  ⟨[], [], by simp⟩

theorem strContains_left {s₁ : String} {sub : String} (h : strContains s₁ sub) (s₂ : String) :
    strContains (s₁ ++ s₂) sub := by
  obtain ⟨l, r, hd⟩ := h
  exact ⟨l, r ++ s₂.data, by simp [hd]⟩

theorem strContains_right {s₂ : String} {sub : String} (h : strContains s₂ sub) (s₁ : String) :
    strContains (s₁ ++ s₂) sub := by
  obtain ⟨l, r, hd⟩ := h
  exact ⟨s₁.data ++ l, r, by simp [hd]⟩

theorem strContains_joinWith {a : String} {l : List String} (sep : String) (h : a ∈ l) :
    strContains (joinWith sep l) a := by
  induction l with
  | nil => cases h
  | cons b rest ih =>
    cases h with
    | head =>
      cases rest with
      | nil => exact strContains_self a
      | cons c cs =>
        show strContains (a ++ sep ++ joinWith sep (c :: cs)) a
        exact strContains_left (strContains_left (strContains_self a) sep) (joinWith sep (c :: cs))
    | tail _ hmem =>
      cases rest with
      | nil => cases hmem
      | cons c cs =>
        show strContains (b ++ sep ++ joinWith sep (c :: cs)) a
        have hj : strContains (joinWith sep (c :: cs)) a := ih hmem
        exact strContains_right hj (b ++ sep)

theorem jsIncludes_iff (s pat : String) : jsIncludes s pat = true ↔ pat.data <:+: s.data := by
  simp only [jsIncludes, List.any_eq_true, List.mem_tails, List.isPrefixOf_iff_prefix]
  constructor
  · rintro ⟨t, ht, hp⟩
    exact List.infix_iff_prefix_suffix.mpr ⟨t, hp, ht⟩
  · intro h
    rcases List.infix_iff_prefix_suffix.mp h with ⟨t, hp, ht⟩
    exact ⟨t, ht, hp⟩

theorem jsEndsWith_iff (s suffixStr : String) :
    jsEndsWith s suffixStr = true ↔ suffixStr.data <:+ s.data := by
  simp [jsEndsWith]

theorem jsGetO_of_ne_null {v : JValue} (h : v ≠ .null) (k : String) :
    jsGetO v k = .ok (objField v k) := by
  cases v <;> simp_all [jsGetO]

theorem jsJoinElem_str (s : String) : jsJoinElem (.str s) = s := by
  simp [jsJoinElem, jsToStringV]

theorem jsJoin_strArr (h : List String) (sep : String) :
    jsJoin (.arr (h.map .str)) sep = .ok (joinWith sep h) := by
  simp [jsJoin, List.map_map, Function.comp_def, jsJoinElem_str]

theorem POST_status_cases (b : Except JsError JValue) (g : String → Except JsError String)
    (f : String → Except JsError FetchResp) :
    (POST b g f).status = 200 ∨ (POST b g f).status = 500 := by
  unfold POST
  cases POSTcore b g f <;> simp

theorem jsToStringO_str (s : String) : jsToStringO (some (.str s)) = s := by
  simp [jsToStringO, jsToStringV]

@[simp]
theorem exceptBind_ok {β γ : Type} (a : β) (f : β → Except JsError γ) :
    (Except.ok a : Except JsError β) >>= f = f a := rfl

@[simp]
theorem exceptBind_error {β γ : Type} (e : JsError) (f : β → Except JsError γ) :
    (Except.error e : Except JsError β) >>= f = Except.error e := rfl

@[simp]
theorem exceptPure_eq_ok {β : Type} (a : β) : (pure a : Except JsError β) = Except.ok a := rfl

theorem processHealthInput_parsed_eq (userInput : Option JValue) (historyJ : JValue)
    (hist : String) (gemini : String → Except JsError String) (reply : String) (v : JValue)
    (hj : jsJoin historyJ "\n" = .ok hist)
    (hg : gemini (extractPrompt hist (jsToStringO userInput)) = .ok reply)
    (hp : parseJson (cleanResp reply) = some v) :
    processHealthInput userInput historyJ gemini = .ok v := by
  simp [processHealthInput, hj, hg, hp]

theorem processHealthInput_fallback_eq (input : String) (historyJ : JValue) (hist : String)
    (gemini : String → Except JsError String) (reply : String)
    (hj : jsJoin historyJ "\n" = .ok hist)
    (hg : gemini (extractPrompt hist input) = .ok reply)
    (hp : parseJson (cleanResp reply) = none) :
    processHealthInput (some (.str input)) historyJ gemini = .ok (manualExtraction input) := by
  simp [processHealthInput, hj, jsToStringO_str, hg, hp]

/-- C1: for every input string and conversation history, when the model
reply has cleaned text that fails to parse as JSON, `processHealthInput` catches
the failure and returns the deterministic fallback record built from the
raw input text instead of propagating the exception. -/
theorem extract_parse_failure_recovers_with_fallback (input : String) (history : List String)
    (gemini : String → Except JsError String) (reply : String)
    (hg : gemini (extractPrompt (joinWith "\n" history) input) = .ok reply)
    (hp : parseJson (cleanResp reply) = none) :
    processHealthInput (some (.str input)) (.arr (history.map .str)) gemini
      = .ok (manualExtraction input) :=
  processHealthInput_fallback_eq input (.arr (history.map .str)) (joinWith "\n" history)
    gemini reply (jsJoin_strArr history "\n") hg hp

/-- Witness for C1 at a concrete input and a non-JSON model reply. -/
theorem extract_parse_failure_recovers_with_fallback_witness :
    processHealthInput (some (.str "I am 43 at Congo. I have diabetes")) (.arr [])
        (fun _ => .ok "I cannot help with that")
      = .ok (manualExtraction "I am 43 at Congo. I have diabetes") :=
  extract_parse_failure_recovers_with_fallback "I am 43 at Congo. I have diabetes" []
    (fun _ => .ok "I cannot help with that") "I cannot help with that" rfl rfl

/-- C10: for every model reply whose cleaned text parses as JSON,
`processHealthInput` returns the parsed value unchanged — no schema
validation, defaulting, or field removal — so a parseable reply that
violates the declared schema is returned as-is as the extracted record. -/
theorem parsed_reply_returned_verbatim (userInput : Option JValue) (historyJ : JValue)
    (hist : String) (gemini : String → Except JsError String) (reply : String) (v : JValue)
    (hj : jsJoin historyJ "\n" = .ok hist)
    (hg : gemini (extractPrompt hist (jsToStringO userInput)) = .ok reply)
    (hp : parseJson (cleanResp reply) = some v) :
    processHealthInput userInput historyJ gemini = .ok v :=
  processHealthInput_parsed_eq userInput historyJ hist gemini reply v hj hg hp

/-- Witness for C10: a parseable reply violating the schema (`symptoms`
null, all other fields missing) is returned exactly as parsed. -/
theorem parsed_reply_returned_verbatim_witness :
    processHealthInput (some (.str "hi")) (.arr []) (fun _ => .ok "\x7b\"symptoms\": null\x7d")
      = .ok (.obj [("symptoms", .null)]) :=
  parsed_reply_returned_verbatim (some (.str "hi")) (.arr []) "" (fun _ => .ok "\x7b\"symptoms\": null\x7d")
    "\x7b\"symptoms\": null\x7d" (.obj [("symptoms", .null)]) rfl rfl rfl

/-- Counterexample to C2 as stated: a parseable model reply with
`isFollowUp: false` and a non-null `followUpTopic` is returned unchanged
by the extraction operation, so the returned record violates the
invariant `isFollowUp = false → followUpTopic = null`. -/
theorem parsed_reply_can_violate_followUpTopic_invariant :
    processHealthInput (some (.str "hello")) (.arr [])
        (fun _ => .ok "\x7b\"isFollowUp\": false, \"followUpTopic\": \"headache\"\x7d")
      = .ok (.obj [("isFollowUp", .bool false), ("followUpTopic", .str "headache")]) ∧
    objField (.obj [("isFollowUp", .bool false), ("followUpTopic", .str "headache")]) "isFollowUp"
      = some (.bool false) ∧
    objField (.obj [("isFollowUp", .bool false), ("followUpTopic", .str "headache")]) "followUpTopic"
      = some (.str "headache") ∧
    (JValue.str "headache" ≠ .null) :=
  ⟨rfl, rfl, rfl, fun h => JValue.noConfusion h⟩

/-- C2 (amended): on the fallback path the `followUpTopic` field of the
returned record is always null; on the JSON-parse path the parsed value
is returned unvalidated, so the invariant holds there only when the model
reply itself satisfies it. -/
theorem followUpTopic_null_on_fallback_only (input : String) (historyJ : JValue) (hist : String)
    (gemini : String → Except JsError String) (reply : String)
    (hj : jsJoin historyJ "\n" = .ok hist)
    (hg : gemini (extractPrompt hist input) = .ok reply) :
    (parseJson (cleanResp reply) = none →
      ∃ r, processHealthInput (some (.str input)) historyJ gemini = .ok r ∧
        objField r "followUpTopic" = some .null) ∧
    (∀ v, parseJson (cleanResp reply) = some v →
      processHealthInput (some (.str input)) historyJ gemini = .ok v) := by
  constructor
  · intro hp
    exact ⟨manualExtraction input,
      processHealthInput_fallback_eq input historyJ hist gemini reply hj hg hp, rfl⟩
  · intro v hp
    exact processHealthInput_parsed_eq (some (.str input)) historyJ hist gemini reply v hj
      (by rw [jsToStringO_str]; exact hg) hp

/-- Witness for the amended C2 at a concrete input and replies. -/
theorem followUpTopic_null_on_fallback_only_witness :
    (parseJson (cleanResp "nope") = none →
      ∃ r, processHealthInput (some (.str "hello")) (.arr []) (fun _ => .ok "nope") = .ok r ∧
        objField r "followUpTopic" = some .null) ∧
    (∀ v, parseJson (cleanResp "nope") = some v →
      processHealthInput (some (.str "hello")) (.arr []) (fun _ => .ok "nope") = .ok v) :=
  followUpTopic_null_on_fallback_only "hello" (.arr []) "" (fun _ => .ok "nope") "nope" rfl rfl

/-- Counterexample to C6 as stated: a parseable reply with `symptoms: null`
flows through the extraction operation unchanged, so the returned
record has a null `symptoms` field. -/
theorem parsed_reply_can_have_null_symptoms :
    processHealthInput (some (.str "hello")) (.arr []) (fun _ => .ok "\x7b\"symptoms\": null\x7d")
      = .ok (.obj [("symptoms", .null)]) ∧
    objField (.obj [("symptoms", .null)]) "symptoms" = some .null :=
  ⟨rfl, rfl⟩

/-- C6 (amended): for every non-parseable model output the `symptoms` field
of the fallback record is a (possibly empty) array of strings — never null; for
parseable output `symptoms` is whatever the reply contained. -/
theorem fallback_symptoms_never_null (input : String) (historyJ : JValue) (hist : String)
    (gemini : String → Except JsError String) (reply : String)
    (hj : jsJoin historyJ "\n" = .ok hist)
    (hg : gemini (extractPrompt hist input) = .ok reply)
    (hp : parseJson (cleanResp reply) = none) :
    ∃ names : List String,
      processHealthInput (some (.str input)) historyJ gemini = .ok (manualExtraction input) ∧
      objField (manualExtraction input) "symptoms" = some (.arr (names.map .str)) :=
  ⟨splitFilter (match sympCapture input with | some c => c | none => ""),
    processHealthInput_fallback_eq input historyJ hist gemini reply hj hg hp, rfl⟩

/-- Witness for the amended C6. -/
theorem fallback_symptoms_never_null_witness :
    ∃ names : List String,
      processHealthInput (some (.str "symptoms: fever and chills")) (.arr [])
          (fun _ => .ok "nope")
        = .ok (manualExtraction "symptoms: fever and chills") ∧
      objField (manualExtraction "symptoms: fever and chills") "symptoms"
        = some (.arr (names.map .str)) :=
  fallback_symptoms_never_null "symptoms: fever and chills" (.arr []) "" (fun _ => .ok "nope")
    "nope" rfl rfl rfl

/-- C9: in the fallback record, `isFollowUp` is true exactly when the
lowercased input contains "previous" or "earlier", or the trimmed input
ends with "?". -/
theorem fallback_isFollowUp_character_of_input (input : String) :
    objField (manualExtraction input) "isFollowUp" = some (.bool true) ↔
      ("previous".data <:+: (jsLower input).data ∨ "earlier".data <:+: (jsLower input).data ∨
        "?".data <:+ (jsTrim input).data) := by
  have hfield : objField (manualExtraction input) "isFollowUp"
      = some (.bool (jsIncludes (jsLower input) "previous" || jsIncludes (jsLower input) "earlier" ||
          jsEndsWith (jsTrim input) "?")) := rfl
  rw [hfield]
  simp only [Option.some.injEq, JValue.bool.injEq, Bool.or_eq_true]
  rw [jsIncludes_iff, jsIncludes_iff, jsEndsWith_iff]
  tauto

/-- Counterexample to C3 as stated: with the location absent (or null),
`fetchClinicalTrials` itself raises (a `TypeError` from
`location.split`) instead of returning the empty sequence, even though
the upstream responds successfully. -/
theorem fetchTrials_raises_on_absent_or_null_location :
    fetchClinicalTrials (some (.arr [])) none none
        (fun _ => .ok ⟨true, 200, .ok "", .ok (.obj [])⟩)
      = .error ⟨"Cannot read properties of undefined (reading split)"⟩ ∧
    fetchClinicalTrials (some (.arr [])) (some .null) none
        (fun _ => .ok ⟨true, 200, .ok "", .ok (.obj [])⟩)
      = .error ⟨"Cannot read properties of null (reading split)"⟩ :=
  ⟨rfl, rfl⟩

/-- C3 (amended): with a string location, `fetchClinicalTrials` returns the
upstream studies list on a success status and the empty list on a
non-success status without raising; but it raises (rather than returning
empty) when the transport call itself rejects or when the location is
null or absent — the `.catch` in the orchestrator is what converts those
raises into an empty list. -/
theorem fetchTrials_amended_behavior (l : List JValue) (locS txt : String)
    (cond : Option JValue) (st : Nat) (e : JsError) (bodyE : Except JsError JValue) :
    (fetchClinicalTrials (some (.arr l)) (some (.str locS)) cond
        (fun _ => .ok ⟨false, st, .ok txt, bodyE⟩) = .ok (.arr [])) ∧
    (∀ ts : List JValue, fetchClinicalTrials (some (.arr l)) (some (.str locS)) cond
        (fun _ => .ok ⟨true, st, .ok txt, .ok (.obj [("studies", .arr ts)])⟩) = .ok (.arr ts)) ∧
    (fetchClinicalTrials (some (.arr l)) (some (.str locS)) cond (fun _ => .error e)
      = .error e) ∧
    (∃ e2, fetchClinicalTrials (some (.arr l)) (some .null) cond
        (fun _ => .ok ⟨true, st, .ok txt, bodyE⟩) = .error e2) ∧
    (∃ e3, fetchClinicalTrials (some (.arr l)) none cond
        (fun _ => .ok ⟨true, st, .ok txt, bodyE⟩) = .error e3) := by
  refine ⟨?_, fun ts => ?_, ?_,
      ⟨⟨"Cannot read properties of null (reading split)"⟩, ?_⟩,
      ⟨⟨"Cannot read properties of undefined (reading split)"⟩, ?_⟩⟩ <;>
    simp [fetchClinicalTrials, jsSpread, jsGetO, objField, objLookup, jsTruthyV]

/-- Counterexample to C7 as stated: the code never truncates the upstream
list, so an upstream response carrying six studies yields a six-element
result — the ≤ 5 bound holds only when the registry honors the requested
page size. -/
theorem trials_can_return_more_than_five :
    fetchClinicalTrials (some (.arr [.str "x"])) (some (.str "US")) none
        (fun _ => .ok ⟨true, 200, .ok "",
          .ok (.obj [("studies",
            .arr [.str "t1", .str "t2", .str "t3", .str "t4", .str "t5", .str "t6"])])⟩)
      = .ok (.arr [.str "t1", .str "t2", .str "t3", .str "t4", .str "t5", .str "t6"]) ∧
    5 < ([.str "t1", .str "t2", .str "t3", .str "t4", .str "t5", .str "t6"] : List JValue).length :=
  ⟨rfl, by simp⟩

/-- C7 (amended): the request URL always carries `pageSize=5`, and the
returned sequence is the upstream studies list unchanged — so its length
is at most 5 exactly when the upstream honors the requested page size. -/
theorem trials_request_page_size_five_passthrough (query country locS txt : String)
    (l ts : List JValue) (cond : Option JValue) (st : Nat) :
    (∃ prefixStr, trialsUrl query country = prefixStr ++ "&pageSize=5") ∧
    fetchClinicalTrials (some (.arr l)) (some (.str locS)) cond
        (fun _ => .ok ⟨true, st, .ok txt, .ok (.obj [("studies", .arr ts)])⟩)
      = .ok (.arr ts) := by
  constructor
  · exact ⟨"https://clinicaltrials.gov/api/v2/studies?format=json&query.cond=" ++
      encodeURIComponent query ++ "&query.locn=" ++ encodeURIComponent country, rfl⟩
  · simp [fetchClinicalTrials, jsSpread, jsGetO, objField, objLookup, jsTruthyV]

/-- C4: whenever extraction succeeds and advice generation succeeds, a
failure of the trial-fetch task does not fail the turn — the handler
still responds with a 200 success bundle whose `healthAdvice` is the
generated advice and whose `clinicalTrials` is the empty list. -/
theorem trial_fetch_failure_preserves_success_bundle
    (bodyV ed : JValue) (gemini : String → Except JsError String)
    (fetchFn : String → Except JsError FetchResp) (advice : String) (e : JsError)
    (hb : bodyV ≠ .null) (hed : ed ≠ .null)
    (hex : processHealthInput (objField bodyV "userInput")
      (histOrDefault (objField bodyV "conversationHistory")) gemini = .ok ed)
    (htr : fetchClinicalTrials (objField ed "symptoms") (objField ed "location")
      (objField ed "condition") fetchFn = .error e)
    (hadv : generateHealthAdvice (objField ed "age") (objField ed "location")
      (objField ed "symptoms") (objField ed "condition") (objField ed "isFollowUp")
      (objField ed "followUpTopic") (histOrDefault (objField bodyV "conversationHistory"))
      gemini = .ok advice) :
    POST (.ok bodyV) gemini fetchFn =
      ⟨200, .obj [("extractedData", ed), ("clinicalTrials", .arr []),
        ("healthAdvice", .str advice)]⟩ := by
  simp [POST, POSTcore, jsGetO_of_ne_null hb, jsGetO_of_ne_null hed, hex, htr, hadv]

/-- Witness for C4: a concrete turn whose trial fetch rejects while the
model succeeds still produces the 200 bundle with empty trials. -/
theorem trial_fetch_failure_preserves_success_bundle_witness :
    POST (.ok (.obj [("userInput", .str "I have a headache")]))
        (fun _ => .ok "\x7b\"age\": 30, \"location\": \"Paris France\", \"condition\": null, \"symptoms\": [\"headache\"], \"isFollowUp\": false, \"followUpTopic\": null\x7d")
        (fun _ => .error ⟨"network down"⟩) =
      ⟨200, .obj [("extractedData",
          .obj [("age", .num 30), ("location", .str "Paris France"), ("condition", .null),
            ("symptoms", .arr [.str "headache"]), ("isFollowUp", .bool false),
            ("followUpTopic", .null)]),
        ("clinicalTrials", .arr []),
        ("healthAdvice", .str "\x7b\"age\": 30, \"location\": \"Paris France\", \"condition\": null, \"symptoms\": [\"headache\"], \"isFollowUp\": false, \"followUpTopic\": null\x7d")]⟩ :=
  trial_fetch_failure_preserves_success_bundle
    (.obj [("userInput", .str "I have a headache")])
    (.obj [("age", .num 30), ("location", .str "Paris France"), ("condition", .null),
      ("symptoms", .arr [.str "headache"]), ("isFollowUp", .bool false),
      ("followUpTopic", .null)])
    (fun _ => .ok "\x7b\"age\": 30, \"location\": \"Paris France\", \"condition\": null, \"symptoms\": [\"headache\"], \"isFollowUp\": false, \"followUpTopic\": null\x7d")
    (fun _ => .error ⟨"network down"⟩)
    "\x7b\"age\": 30, \"location\": \"Paris France\", \"condition\": null, \"symptoms\": [\"headache\"], \"isFollowUp\": false, \"followUpTopic\": null\x7d"
    ⟨"network down"⟩
    (fun h => JValue.noConfusion h) (fun h => JValue.noConfusion h) rfl rfl rfl

/-- Counterexample to C5 as stated: with `userInput` missing from the body,
the current (five-field) handler does not return a 400 — its outcome
depends on the reply of the generative model (200 when the model answers with
parseable JSON, 500 when the model call fails), so the model is invoked
despite the missing required input. -/
theorem missing_userInput_not_rejected_by_current_POST :
    (POST (.ok (.obj []))
        (fun _ => .ok "\x7b\"age\": null, \"location\": \"X\", \"condition\": null, \"symptoms\": [], \"isFollowUp\": false, \"followUpTopic\": null\x7d")
        (fun _ => .error ⟨"net"⟩)).status = 200 ∧
    (POST (.ok (.obj [])) (fun _ => .error ⟨"model down"⟩)
        (fun _ => .error ⟨"net"⟩)).status = 500 :=
  ⟨rfl, rfl⟩

/-- C5 (amended): only the earlier three-field route variant validates the
input: on a missing or falsy `userInput` it returns 400 with an error
message immediately, independently of the model and registry transports
(so before any upstream call); the current five-field handler performs no
such validation and never returns a 400. -/
theorem userInput_validation_only_in_v1_variant
    (bodyV : JValue) (g1 g2 : String → Except JsError String)
    (f1 f2 : String → Except JsError FetchResp)
    (hb : bodyV ≠ .null)
    (hfalsy : jsTruthy (objField bodyV "userInput") = false) :
    POSTV1 (.ok bodyV) g1 f1 = ⟨400, .obj [("error", .str "No input provided")]⟩ ∧
    POSTV1 (.ok bodyV) g1 f1 = POSTV1 (.ok bodyV) g2 f2 ∧
    (POST (.ok bodyV) g1 f1).status ≠ 400 := by
  refine ⟨?_, ?_, ?_⟩
  · simp [POSTV1, POSTV1core, jsGetO_of_ne_null hb, hfalsy]
  · simp [POSTV1, POSTV1core, jsGetO_of_ne_null hb, hfalsy]
  · rcases POST_status_cases (.ok bodyV) g1 f1 with h | h <;> rw [h] <;> omega

/-- Witness for the amended C5 at a concrete empty body. -/
theorem userInput_validation_only_in_v1_variant_witness :
    POSTV1 (.ok (.obj [])) (fun _ => .ok "x") (fun _ => .error ⟨"net"⟩)
      = ⟨400, .obj [("error", .str "No input provided")]⟩ ∧
    POSTV1 (.ok (.obj [])) (fun _ => .ok "x") (fun _ => .error ⟨"net"⟩)
      = POSTV1 (.ok (.obj [])) (fun _ => .error ⟨"m"⟩) (fun _ => .error ⟨"n"⟩) ∧
    (POST (.ok (.obj [])) (fun _ => .ok "x") (fun _ => .error ⟨"net"⟩)).status ≠ 400 :=
  userInput_validation_only_in_v1_variant (.obj []) (fun _ => .ok "x") (fun _ => .error ⟨"m"⟩)
    (fun _ => .error ⟨"net"⟩) (fun _ => .error ⟨"n"⟩) (fun h => JValue.noConfusion h) rfl

theorem jsTruthy_some_bool (b : Bool) : jsTruthy (some (.bool b)) = b := rfl

theorem jsTruthy_some_str (s : String) : jsTruthy (some (.str s)) = (s != "") := rfl

theorem jsLength_arr (l : List JValue) : jsLength (some (.arr l)) = .ok (some l.length) := rfl

theorem jsToStringV_str (s : String) : jsToStringV (.str s) = s := rfl

theorem jsJoinArrOnly_strArr (l : List String) (sep : String) :
    jsJoinArrOnly (some (.arr (l.map .str))) sep = .ok (joinWith sep l) := by
  simp [jsJoinArrOnly, List.map_map, Function.comp_def, jsJoinElem_str]

theorem jsJoinArrOnly_strArr_cons (n0 : String) (ns : List String) (sep : String) :
    jsJoinArrOnly (some (.arr (.str n0 :: ns.map .str))) sep = .ok (joinWith sep (n0 :: ns)) := by
  have h := jsJoinArrOnly_strArr (n0 :: ns) sep
  simpa using h

theorem jsMapSymptomLines_strArr (l : List String) :
    jsMapSymptomLines (some (.arr (l.map .str)))
      = .ok (l.map (fun n => "[" ++ n ++ "]: [Advice for " ++ n ++ "]")) := by
  simp [jsMapSymptomLines, List.map_map, Function.comp_def, jsToStringV_str]

theorem jsMapSymptomLines_strArr_cons (n0 : String) (ns : List String) :
    jsMapSymptomLines (some (.arr (.str n0 :: ns.map .str)))
      = .ok (("[" ++ n0 ++ "]: [Advice for " ++ n0 ++ "]") ::
          ns.map (fun n => "[" ++ n ++ "]: [Advice for " ++ n ++ "]")) := by
  have h := jsMapSymptomLines_strArr (n0 :: ns)
  simpa using h

theorem splitSeekLower :
    ("\n    Provide specific recommendations for each symptom (if any) and when to seek professional medical help. \n    If there\x27s a pre-existing condition, consider how it might interact with the symptoms.\n    \n    Conversation history:\n    " : String)
      = "\n    Provide specific recommendations for each symptom (if any) and " ++
        ("when to seek professional medical help" ++
          ". \n    If there\x27s a pre-existing condition, consider how it might interact with the symptoms.\n    \n    Conversation history:\n    ") := by
  decide

theorem splitInteract :
    ("\n    Provide specific recommendations for each symptom (if any) and when to seek professional medical help. \n    If there\x27s a pre-existing condition, consider how it might interact with the symptoms.\n    \n    Conversation history:\n    " : String)
      = "\n    Provide specific recommendations for each symptom (if any) and when to seek professional medical help. \n    If there\x27s a pre-existing condition, " ++
        ("consider how it might interact with the symptoms" ++
          ".\n    \n    Conversation history:\n    ") := by
  decide

theorem splitGeneralAdvice :
    ("\n    General Advice: [General advice here]\n    \n    " : String)
      = "\n    " ++ ("General Advice: [General advice here]" ++ "\n    \n    ") := by
  decide

theorem splitWhenToSeek :
    ("\n    When to Seek Medical Help: [Advice on when to seek professional help]\n    " : String)
      = "\n    " ++ ("When to Seek Medical Help: [Advice on when to seek professional help]" ++ "\n    ") := by
  decide

theorem splitSymSpec :
    ("Symptom-specific Advice:\n    " : String)
      = "Symptom-specific Advice:" ++ "\n    " := by
  decide

/-- C8: the advice instruction is a function of `isFollowUp` with two
modes.  Follow-up mode requests a single "Answer" section answering the
follow-up topic grounded in the embedded conversation history.
Fresh-issue mode requests general advice, one advice line per reported
symptom (present whenever symptoms are non-empty), explicit
when-to-seek-professional-care guidance, and — with a pre-existing
condition present — names the condition and instructs the model to
consider how it interacts with the symptoms. -/
theorem advice_prompt_two_modes
    (age location sym followUpTopic cond : Option JValue)
    (histStrings names : List String) (c : String) (hc : c ≠ "") :
    (∀ p, buildAdvicePrompt age location sym cond (some (.bool true)) followUpTopic
        (.arr (histStrings.map .str)) = .ok p →
      strContains p "provide a detailed answer to the user\x27s follow-up question or comment about " ∧
      strContains p followUpFmt ∧
      (jsTruthy followUpTopic = true → strContains p (jsToStringO followUpTopic)) ∧
      strContains p (joinWith "\n" histStrings)) ∧
    (∀ p, buildAdvicePrompt age location (some (.arr (names.map .str))) (some (.str c))
        (some (.bool false)) followUpTopic (.arr (histStrings.map .str)) = .ok p →
      strContains p "General Advice: [General advice here]" ∧
      strContains p "when to seek professional medical help" ∧
      strContains p "When to Seek Medical Help: [Advice on when to seek professional help]" ∧
      strContains p "consider how it might interact with the symptoms" ∧
      strContains p " They have a pre-existing condition of " ∧
      strContains p c ∧
      (∀ n ∈ names, strContains p ("[" ++ n ++ "]: [Advice for " ++ n ++ "]")) ∧
      (names ≠ [] → strContains p "Symptom-specific Advice:") ∧
      strContains p (joinWith "\n" histStrings)) := by
  constructor
  · intro p hp
    simp [buildAdvicePrompt, jsTruthy_some_bool, jsJoin_strArr] at hp
    subst hp
    refine ⟨?_, ?_, ?_, ?_⟩
    · apply strContains_left
      apply strContains_right
      apply strContains_left
      apply strContains_left
      apply strContains_left
      exact strContains_self _
    · apply strContains_right
      simp only [advicePromptTail]
      apply strContains_left
      apply strContains_right
      exact strContains_self _
    · intro htop
      apply strContains_left
      apply strContains_right
      apply strContains_left
      apply strContains_left
      rw [if_pos htop]
      apply strContains_right
      exact strContains_self _
    · apply strContains_right
      simp only [advicePromptTail]
      apply strContains_left
      apply strContains_left
      apply strContains_left
      apply strContains_right
      exact strContains_self _
  · intro p hp
    cases names with
    | nil =>
      simp [buildAdvicePrompt, jsTruthy_some_bool, jsTruthy_some_str, jsLength_arr,
        jsJoin_strArr, jsToStringO_str, hc] at hp
      subst hp
      refine ⟨?_, ?_, ?_, ?_, ?_, ?_, ?_, ?_, ?_⟩
      · apply strContains_right
        simp only [advicePromptTail, freshFmt]
        apply strContains_left
        apply strContains_right
        apply strContains_left
        apply strContains_left
        rw [splitGeneralAdvice]
        apply strContains_right
        apply strContains_left
        exact strContains_self _
      · apply strContains_right
        simp only [advicePromptTail]
        apply strContains_left
        apply strContains_left
        apply strContains_left
        apply strContains_left
        rw [splitSeekLower]
        apply strContains_right
        apply strContains_left
        exact strContains_self _
      · apply strContains_right
        simp only [advicePromptTail, freshFmt]
        apply strContains_left
        apply strContains_right
        apply strContains_right
        rw [splitWhenToSeek]
        apply strContains_right
        apply strContains_left
        exact strContains_self _
      · apply strContains_right
        simp only [advicePromptTail]
        apply strContains_left
        apply strContains_left
        apply strContains_left
        apply strContains_left
        rw [splitInteract]
        apply strContains_right
        apply strContains_left
        exact strContains_self _
      · apply strContains_left
        apply strContains_right
        apply strContains_left
        apply strContains_left
        apply strContains_right
        exact strContains_self _
      · apply strContains_left
        apply strContains_right
        apply strContains_left
        apply strContains_right
        exact strContains_self _
      · intro n hn
        exact absurd hn (List.not_mem_nil n)
      · intro hne
        exact absurd rfl hne
      · apply strContains_right
        simp only [advicePromptTail]
        apply strContains_left
        apply strContains_left
        apply strContains_left
        apply strContains_right
        exact strContains_self _
    | cons n0 ns =>
      simp [buildAdvicePrompt, jsTruthy_some_bool, jsTruthy_some_str, jsLength_arr,
        jsJoinArrOnly_strArr_cons, jsMapSymptomLines_strArr_cons, jsJoin_strArr,
        jsToStringO_str, hc] at hp
      subst hp
      refine ⟨?_, ?_, ?_, ?_, ?_, ?_, ?_, ?_, ?_⟩
      · apply strContains_right
        simp only [advicePromptTail, freshFmt]
        apply strContains_left
        apply strContains_right
        apply strContains_left
        apply strContains_left
        rw [splitGeneralAdvice]
        apply strContains_right
        apply strContains_left
        exact strContains_self _
      · apply strContains_right
        simp only [advicePromptTail]
        apply strContains_left
        apply strContains_left
        apply strContains_left
        apply strContains_left
        rw [splitSeekLower]
        apply strContains_right
        apply strContains_left
        exact strContains_self _
      · apply strContains_right
        simp only [advicePromptTail, freshFmt]
        apply strContains_left
        apply strContains_right
        apply strContains_right
        rw [splitWhenToSeek]
        apply strContains_right
        apply strContains_left
        exact strContains_self _
      · apply strContains_right
        simp only [advicePromptTail]
        apply strContains_left
        apply strContains_left
        apply strContains_left
        apply strContains_left
        rw [splitInteract]
        apply strContains_right
        apply strContains_left
        exact strContains_self _
      · apply strContains_left
        apply strContains_right
        apply strContains_left
        apply strContains_left
        apply strContains_right
        exact strContains_self _
      · apply strContains_left
        apply strContains_right
        apply strContains_left
        apply strContains_right
        exact strContains_self _
      · intro n hn
        apply strContains_right
        simp only [advicePromptTail, freshFmt]
        apply strContains_left
        apply strContains_right
        apply strContains_left
        apply strContains_right
        apply strContains_left
        apply strContains_right
        exact strContains_joinWith "\n"
          (List.mem_map_of_mem (fun n => "[" ++ n ++ "]: [Advice for " ++ n ++ "]") hn)
      · intro _
        apply strContains_right
        simp only [advicePromptTail, freshFmt]
        apply strContains_left
        apply strContains_right
        apply strContains_left
        apply strContains_right
        apply strContains_left
        apply strContains_left
        rw [splitSymSpec]
        apply strContains_left
        exact strContains_self _
      · apply strContains_right
        simp only [advicePromptTail]
        apply strContains_left
        apply strContains_left
        apply strContains_left
        apply strContains_right
        exact strContains_self _

/-- Witness for C8 at concrete inputs: the fresh-issue instruction for one
symptom and a pre-existing condition contains the general-advice section. -/
theorem advice_prompt_two_modes_witness :
    strContains "Given the following conversation history and current health information, generate health advice for a person aged undefined experiencing the following symptom: x. They have a pre-existing condition of d.\n    Provide specific recommendations for each symptom (if any) and when to seek professional medical help. \n    If there\x27s a pre-existing condition, consider how it might interact with the symptoms.\n    \n    Conversation history:\n    \n    \n    Format the response as follows:\n    \n    General Advice: [General advice here]\n    \n    Symptom-specific Advice:\n    [x]: [Advice for x]\n    \n    When to Seek Medical Help: [Advice on when to seek professional help]\n    \n  " "General Advice: [General advice here]" :=
  ((advice_prompt_two_modes none none none none none [] ["x"] "d" (by decide)).2
    "Given the following conversation history and current health information, generate health advice for a person aged undefined experiencing the following symptom: x. They have a pre-existing condition of d.\n    Provide specific recommendations for each symptom (if any) and when to seek professional medical help. \n    If there\x27s a pre-existing condition, consider how it might interact with the symptoms.\n    \n    Conversation history:\n    \n    \n    Format the response as follows:\n    \n    General Advice: [General advice here]\n    \n    Symptom-specific Advice:\n    [x]: [Advice for x]\n    \n    When to Seek Medical Help: [Advice on when to seek professional help]\n    \n  "
    rfl).1

end SimpliHealth
